import Mathlib

/-!
Verification of the multi-channel tile blending pipeline of the iipsrv
blending fork.  The embedded source files are:

* `src/TileBlender.h`   — `BlendColor::from_int`, `BlendingSetting`
* `src/TileBlender.cc`  — `TileBlender::loadBlendingSettingsFromJson`,
  `TileBlender::blendTiles`, `TileBlender::blendRegions`
* `src/ZoomifyBlend.cc` — `ZoomifyBlend::loadBlendingSettingsFromJSon`,
  `ZoomifyBlend::run`, `ZoomifyBlend::send`
* `src/IIIFBlend.cc`    — `IIIFBlend::run`

C strings (`char*` / `std::string`) are embedded as `List Char` (the inputs
relevant to the claims are ASCII, where characters and bytes coincide).
jansson JSON values are embedded structurally as `JValue`; `json_loads`
itself is an external library routine, so handler models take its result
(`Option JValue`, `none` = parse failure / NULL) as an input.  Places where
the C code has undefined behaviour (dereferencing NULL or a pointer past the
end of a buffer) are modelled by an explicit `ub` outcome.
-/

namespace IipsrvBlend

/-- Structural model of a jansson JSON value.  `jstr`/`jint`/`jobj` mirror
string, integer and object values; every other JSON type (real, bool, null,
array) is collapsed into `jother` because the embedded code only ever asks
for strings, integers and object fields. -/
inductive JValue where
  | jstr (s : List Char)
  | jint (n : Int)
  | jobj (fields : List (List Char × JValue))
  | jother

/-- Field lookup inside a JSON object, first match wins
(jansson `json_object_get` on the object's key). -/
def lookupField : List (List Char × JValue) → List Char → Option JValue
  | [], _ => none
  | (k, v) :: rest, key => if k = key then some v else lookupField rest key

/-- `json_object_get(value, key)`: `NULL` (= `none`) when `value` is not an
object or the key is absent. -/
def jsonObjectGet (v : JValue) (key : List Char) : Option JValue :=
  match v with
  | .jobj fields => lookupField fields key
  | _ => none

/-- `json_string_value`: the character data of a string value, `NULL`
(= `none`) for any other type. -/
def jsonStringValue : JValue → Option (List Char)
  | .jstr s => some s
  | _ => none

/-- `json_integer_value`: the value of an integer, `0` for any other type. -/
def jsonIntegerValue : JValue → Int
  | .jint n => n
  | _ => 0

/-- C `isspace` in the default locale. -/
def isCSpace (c : Char) : Bool :=
  c = ' ' ∨ c = '\t' ∨ c = '\n' ∨ c = '\x0b' ∨ c = '\x0c' ∨ c = '\r'

/-- Greedy decimal-digit accumulator used by `atoi`. -/
def decDigits : List Char → Nat → Nat
  | c :: cs, acc =>
      if '0' ≤ c ∧ c ≤ '9' then decDigits cs (acc * 10 + (c.toNat - 48)) else acc
  | [], acc => acc

/-- C `atoi`: skip leading whitespace, optional sign, then greedy decimal
digits; `0` when no digit follows.  (Overflow of `int` is undefined
behaviour in C and out of the modelled domain; the model is unbounded.) -/
def atoi (s : List Char) : Int :=
  match s.dropWhile isCSpace with
  | '-' :: rest => -(decDigits rest 0 : Int)
  | '+' :: rest => (decDigits rest 0 : Int)
  | rest => (decDigits rest 0 : Int)

/-- `static_cast<unsigned int>` of an integral value: reduction modulo 2^32. -/
def uintCast (n : Int) : Nat := (n % (2 ^ 32 : Int)).toNat

/-- `BlendingSetting` from `src/TileBlender.h` (fields `idx`, `lut`, `min`,
`max`; the three numeric fields are `unsigned int`). -/
structure BlendingSetting where
  idx : Nat
  lut : List Char
  min : Nat
  max : Nat
deriving DecidableEq, Repr

/-- Result of one of the two blend-spec parsers.  `ub` marks inputs on which
the C code has undefined behaviour (NULL or past-the-end dereference);
`fail` is `return false`; `ok` is `return true` together with the settings
pushed into the output vector. -/
inductive ParseOutcome where
  | ub
  | fail
  | ok (settings : List BlendingSetting)
deriving DecidableEq, Repr

/-- Loop body of `TileBlender::loadBlendingSettingsFromJson`
(`src/TileBlender.cc` lines 38-73), iterating over the top-level object's
entries in document order.  Per entry: `idx = atoi(key)`;
`tmp_lut = json_string_value(lut) + 1` (the first character is skipped
unconditionally — `.ub` when the lut is not a string, or is empty so that
the `+ 1` points past the terminating NUL); reject unless the remaining
string has length 6; `min`/`max` are `json_integer_value` cast to
`unsigned int`; reject when `max < min` (the `min < 0` / `max < 0` tests
are kept although they can never fire on an unsigned value). -/
def tbLoadLoop : List (List Char × JValue) → List BlendingSetting → ParseOutcome
  | [], acc => .ok acc
  | (key, value) :: rest, acc =>
    match jsonObjectGet value "lut".data with
    | none => .fail
    | some lutObj =>
      match jsonStringValue lutObj with
      | none => .ub
      | some s =>
        if s.length = 0 then .ub
        else
          let lut := s.drop 1
          if lut.length ≠ 6 then .fail
          else
            match jsonObjectGet value "min".data with
            | none => .fail
            | some minObj =>
              let mn := uintCast (jsonIntegerValue minObj)
              if mn < 0 then .fail
              else
                match jsonObjectGet value "max".data with
                | none => .fail
                | some maxObj =>
                  let mx := uintCast (jsonIntegerValue maxObj)
                  if mx < 0 ∨ mx < mn then .fail
                  else tbLoadLoop rest (acc ++ [⟨uintCast (atoi key), lut, mn, mx⟩])

/-- `TileBlender::loadBlendingSettingsFromJson` (`src/TileBlender.cc`
lines 23-80), taking the result of the external `json_loads` call as input
(`none` = jansson returned NULL, the function prints the error and returns
false).  When the root is not an object, `json_object_iter` returns NULL,
the loop never runs and the function returns true with no settings. -/
def tbLoadBlendingSettings (jroot : Option JValue) : ParseOutcome :=
  match jroot with
  | none => .fail
  | some (.jobj entries) => tbLoadLoop entries []
  | some _ => .ok []

/-- Loop body of `ZoomifyBlend::loadBlendingSettingsFromJSon`
(`src/ZoomifyBlend.cc` lines 74-111).  Identical to the TileBlender loop
except that `min` and `max` are read with `atoi(json_string_value(obj))`
(`.ub` when the field is not a string: `atoi(NULL)` dereferences NULL) and
the final test is `max <= 0 || max <= min`. -/
def zbLoadLoop : List (List Char × JValue) → List BlendingSetting → ParseOutcome
  | [], acc => .ok acc
  | (key, value) :: rest, acc =>
    match jsonObjectGet value "lut".data with
    | none => .fail
    | some lutObj =>
      match jsonStringValue lutObj with
      | none => .ub
      | some s =>
        if s.length = 0 then .ub
        else
          let lut := s.drop 1
          if lut.length ≠ 6 then .fail
          else
            match jsonObjectGet value "min".data with
            | none => .fail
            | some minObj =>
              match jsonStringValue minObj with
              | none => .ub
              | some ms =>
                let mn := uintCast (atoi ms)
                if mn < 0 then .fail
                else
                  match jsonObjectGet value "max".data with
                  | none => .fail
                  | some maxObj =>
                    match jsonStringValue maxObj with
                    | none => .ub
                    | some xs =>
                      let mx := uintCast (atoi xs)
                      if mx ≤ 0 ∨ mx ≤ mn then .fail
                      else zbLoadLoop rest (acc ++ [⟨uintCast (atoi key), lut, mn, mx⟩])

/-- `ZoomifyBlend::loadBlendingSettingsFromJSon` (`src/ZoomifyBlend.cc`
lines 57-118), taking the `json_loads` result as input. -/
def zbLoadBlendingSettings (jroot : Option JValue) : ParseOutcome :=
  match jroot with
  | none => .fail
  | some (.jobj entries) => zbLoadLoop entries []
  | some _ => .ok []

/-! ### The blending arithmetic

The inner loops of `TileBlender::blendTiles` (`src/TileBlender.cc` lines
899-928), `TileBlender::blendRegions` (lines 1046-1075) and
`ZoomifyBlend::send` (`src/ZoomifyBlend.cc` lines 682-702) are identical:

    auto r = b_color.r * (gv / (std::pow(2, 8) - 1));
    dst_row_p[x*3] = (uint8_t) std::min(255, std::max(0, (int)(r + dst_row_p[x*3])));

`gv / 255.0`, the multiplication by the colour component and the addition of
the current output byte are IEEE-754 `double` operations.  They are embedded
exactly: a non-negative double is represented as `m / 2^d` (`Dbl`), and each
operation rounds its exact result to 53 significant bits with
round-to-nearest, ties-to-even.  The model is exact for the values that can
occur here (colour component, gray value and accumulator all in `0..255`);
it was checked against hardware double arithmetic on all 2^24 input
triples. -/

/-- Fuel-driven bit length: `bitlen fuel n` is the number of binary digits
of `n` (for `n < 2 ^ fuel`). -/
def bitlen : Nat → Nat → Nat
  | 0, _ => 0
  | fuel + 1, n => if n = 0 then 0 else bitlen fuel (n / 2) + 1

/-- Round `a / b` to the nearest integer, ties to even (`b > 0`). -/
def rheFrac (a b : Nat) : Nat :=
  let q := a / b
  let r := a % b
  if 2 * r < b then q
  else if b < 2 * r then q + 1
  else if q % 2 = 0 then q else q + 1

/-- Smallest `j` with `255 ≤ gv * 2 ^ j` (fuel-driven; `gv ≥ 1`). -/
def expAdjust : Nat → Nat → Nat
  | 0, _ => 0
  | fuel + 1, gv => if 255 ≤ gv then 0 else expAdjust fuel (2 * gv) + 1

/-- A non-negative binary64 value `m / 2 ^ d`. -/
structure Dbl where
  m : Nat
  d : Nat
deriving DecidableEq, Repr

/-- `gv / (std::pow(2, 8) - 1)` in double precision: `std::pow(2, 8) - 1`
is exactly `255.0`, `gv` converts exactly, and the quotient is rounded to
53 significant bits (binary exponent `-(52 + j)` where `j` places `gv/255`
in `[2^-j-1, 2^-j)`). -/
def flDiv255 (gv : Nat) : Dbl :=
  if gv = 0 then ⟨0, 0⟩
  else
    let j := expAdjust 16 gv
    ⟨rheFrac (gv * 2 ^ (52 + j)) 255, 52 + j⟩

/-- Double-precision product of the (exactly converted) colour component
`c` with `x`: the exact product is re-rounded to 53 significant bits. -/
def flMul (c : Nat) (x : Dbl) : Dbl :=
  let p := c * x.m
  let s := bitlen 128 p
  if s ≤ 53 then ⟨p, x.d⟩
  else ⟨rheFrac p (2 ^ (s - 53)), x.d - (s - 53)⟩

/-- Double-precision sum of `x` with the (exactly converted) accumulator
byte `out`: the exact sum is re-rounded to 53 significant bits. -/
def flAdd (x : Dbl) (out : Nat) : Dbl :=
  let s := x.m + out * 2 ^ x.d
  let t := bitlen 128 s
  if t ≤ 53 then ⟨s, x.d⟩
  else ⟨rheFrac s (2 ^ (t - 53)), x.d - (t - 53)⟩

/-- One component update of the blending loop:
`(uint8_t) std::min(255, std::max(0, (int)(c * (gv / 255.0) + out)))`.
The `static_cast<int>` truncates toward zero; the value is non-negative, so
truncation is `m / 2 ^ d`. -/
def blendStep (c gv out : Nat) : Nat :=
  let v := flAdd (flMul c (flDiv255 gv)) out
  (min 255 (max 0 ((v.m / 2 ^ v.d : Nat) : Int))).toNat

/-- `BlendColor` of `src/TileBlender.h` (a copy named `blend_color` exists
in `src/ZoomifyBlend.cc` lines 44-55 with the same body). -/
structure BlendColor where
  r : Nat
  g : Nat
  b : Nat
deriving DecidableEq, Repr

/-- `BlendColor::from_int` (`src/TileBlender.h` lines 24-31):
`r = (color & 0xFF0000) >> 16`, `g = (color & 0xFF00) >> 8`,
`b = color & 0xFF`, on the two's-complement bit pattern of the `int`. -/
def BlendColor.from_int (color : Int) : BlendColor :=
  let m := (color % (2 ^ 32 : Int)).toNat
  ⟨m / 2 ^ 16 % 2 ^ 8, m / 2 ^ 8 % 2 ^ 8, m % 2 ^ 8⟩

/-- Hexadecimal digit value, as accepted by `strtol` with base 16. -/
def hexVal (c : Char) : Option Nat :=
  if '0' ≤ c ∧ c ≤ '9' then some (c.toNat - 48)
  else if 'a' ≤ c ∧ c ≤ 'f' then some (c.toNat - 87)
  else if 'A' ≤ c ∧ c ≤ 'F' then some (c.toNat - 55)
  else none

/-- Greedy hexadecimal accumulator. -/
def hexDigitsVal : List Char → Nat → Nat
  | c :: cs, acc =>
      match hexVal c with
      | some v => hexDigitsVal cs (acc * 16 + v)
      | none => acc
  | [], acc => acc

/-- Number of leading hexadecimal digits. -/
def hexDigitsCount : List Char → Nat
  | c :: cs => match hexVal c with
      | some _ => hexDigitsCount cs + 1
      | none => 0
  | [] => 0

/-- `std::stoi(s, nullptr, 16)`: skip whitespace, optional sign, optional
`0x`/`0X` when followed by a hex digit, then greedy hex digits.  `none`
models the thrown exception: `invalid_argument` when no digit was consumed,
`out_of_range` when the value leaves the `int` range (both are caught by
the blend loop's `catch (std::exception&)`). -/
def stoiHex (s : List Char) : Option Int :=
  let t := s.dropWhile isCSpace
  let signed : Bool × List Char :=
    match t with
    | '-' :: r => (true, r)
    | '+' :: r => (false, r)
    | r => (false, r)
  let t2 : List Char :=
    match signed.2 with
    | '0' :: 'x' :: r => if (hexVal (r.headD 'z')).isSome then r else signed.2
    | '0' :: 'X' :: r => if (hexVal (r.headD 'z')).isSome then r else signed.2
    | _ => signed.2
  if hexDigitsCount t2 = 0 then none
  else
    let v : Int := (if signed.1 then -1 else 1) * (hexDigitsVal t2 0 : Int)
    if v < -(2 ^ 31 : Int) ∨ (2 ^ 31 : Int) ≤ v then none
    else some v

/-- Colour component selected by the output byte's position within its
pixel: offset 0 is red, 1 is green, 2 is blue. -/
def colorComp (col : BlendColor) (k : Nat) : Nat :=
  if k = 0 then col.r else if k = 1 then col.g else col.b

/-- One channel of the blending loop: the doubly nested `y`/`x` loop walks
every byte `i` of the interleaved RGB output buffer exactly once
(`i = y * dst_stride + x * 3 + comp` with `dst_stride = 3 * width`), reads
the source pixel `src[y * src_stride + x]` — i.e. `src[i / 3]` — and
updates the byte in place with `blendStep`. -/
def blendChannel (col : BlendColor) (src dst : List Nat) : List Nat :=
  dst.mapIdx fun i old => blendStep (colorComp col (i % 3)) (src.getD (i / 3) 0) old

/-- The channel loop of `blendTiles`/`blendRegions`/`send`: in the fixed
order of the settings, parse the tint with `std::stoi(lut, nullptr, 16)`
(failure → `setError("2 1", lut)` and throw, modelled as `.error lut`),
convert it with `BlendColor::from_int`, and accumulate the channel into the
output buffer. -/
def blendChannels : List BlendingSetting → List (List Nat) → List Nat →
    Except (List Char) (List Nat)
  | s :: ss, t :: ts, dst =>
      match stoiHex s.lut with
      | none => .error s.lut
      | some v => blendChannels ss ts (blendChannel (BlendColor.from_int v) t dst)
  | _, _, dst => .ok dst

/-- Tile-index remap of `TileBlender::blendTiles` (`src/TileBlender.cc`
lines 824-837) and `ZoomifyBlend::send` (`src/ZoomifyBlend.cc` lines
314-329): rotations of 90 and 270 degrees leave the index unchanged (empty
branches), 180 degrees remaps to `ntiles - tile - 1` with
`ntiles = ceil(w/tw) * ceil(h/tw)` at the requested resolution
(`(int) ceil((double) w / tw)` is exact for the representable sizes and
equals `(w + tw - 1) / tw`).  A negative array index into `image_widths`
would be undefined behaviour in C; the model clamps via `toNat`/`getD`. -/
def remapTile (rotation : Int) (numRes : Nat) (widths heights : List Nat)
    (tw : Nat) (resolution tile : Int) : Int :=
  if rotation % 360 = 90 then tile
  else if rotation % 360 = 270 then tile
  else if rotation % 360 = 180 then
    let imw := widths.getD ((numRes : Int) - resolution - 1).toNat 0
    let imh := heights.getD ((numRes : Int) - resolution - 1).toNat 0
    let ntiles : Int := (((imw + tw - 1) / tw : Nat) : Int) * (((imh + tw - 1) / tw : Nat) : Int)
    ntiles - tile - 1
  else tile

/-- Observable outcome of `blendTiles`/`blendRegions`. -/
inductive BlendRunResult where
  | earlyError (code : String)
  | invalidIndex
  | tintError (code : String) (lut : List Char)
  | sent (rgb : List Nat)
deriving DecidableEq, Repr

/-- `TileBlender::blendTiles` (`src/TileBlender.cc` lines 807-973).  The
sanity check `session->images.size() != blending_settings.size()` sets
error `"2 1"` and throws before the rotation remap and before
`getRawTilesAndPreprocess` runs, so no tile is fetched and no response
byte is written.  Tile fetching and preprocessing go through external
collaborators (tile cache, transforms); the preprocessed 8-bit buffers are
therefore inputs (`tiles`), with `w`/`h` the common tile dimensions.  The
output buffer is allocated zero-initialised (`new uint8_t[len]()`). -/
def blendTilesRun (numImages : Nat) (settings : List BlendingSetting)
    (rotation : Int) (numRes : Nat) (widths heights : List Nat) (tw : Nat)
    (resolution tile : Int) (w h : Nat) (tiles : List (List Nat)) : BlendRunResult :=
  if numImages ≠ settings.length then .earlyError "2 1"
  else
    let tile1 := remapTile rotation numRes widths heights tw resolution tile
    if resolution < 0 ∨ tile1 < 0 then .invalidIndex
    else
      match blendChannels settings tiles (List.replicate (w * h * 3) 0) with
      | .error lut => .tintError "2 1" lut
      | .ok dst => .sent dst

/-- `TileBlender::blendRegions` (`src/TileBlender.cc` lines 976-1120): the
same sanity check and blending loop, without the rotation remap (region
geometry is resolved in `getRawRegionsAndPreprocess`, an external path
whose preprocessed buffers are again inputs). -/
def blendRegionsRun (numImages : Nat) (settings : List BlendingSetting)
    (w h : Nat) (tiles : List (List Nat)) : BlendRunResult :=
  if numImages ≠ settings.length then .earlyError "2 1"
  else
    match blendChannels settings tiles (List.replicate (w * h * 3) 0) with
    | .error lut => .tintError "2 1" lut
    | .ok dst => .sent dst

/-! ### Request handling: URL pieces, dispatch, format checks -/

/-- First position at which `pat` occurs in the remaining haystack
(`std::string::find`, with the running index threaded through). -/
def findSub : List Char → List Char → Nat → Option Nat
  | [], pat, i => if pat.isEmpty then some i else none
  | c :: cs, pat, i =>
      if pat.isPrefixOf (c :: cs) then some i else findSub cs pat (i + 1)

/-- `std::string::find(pat)`: `none` models `npos`. -/
def strFind (s pat : List Char) : Option Nat := findSub s pat 0

/-- `argument.substr(argument.find("&") + 1, argument.length())`
(`src/ZoomifyBlend.cc` line 129 and `src/IIIFBlend.cc` line 97): the blend
JSON handed to `json_loads`.  When the URL has no `&`, `find` returns
`npos` (`size_t(-1)`) and `npos + 1` wraps to `0`, so the substring is the
entire URL. -/
def blendJsonArg (argument : List Char) : List Char :=
  match strFind argument ['&'] with
  | some i => argument.drop (i + 1)
  | none => argument

/-- Observable outcome of the blend-spec phase of a handler: either
`setError(code, argument)` followed by a throw (no image bytes written), or
the parsed settings flow on into the pipeline. -/
inductive HandlerOutcome where
  | errorSet (code : String)
  | proceed (settings : List BlendingSetting)
deriving DecidableEq, Repr

/-- Blend-spec phase of `ZoomifyBlend::run` (`src/ZoomifyBlend.cc` lines
135-146): parser failure → error `"2 1"`; zero settings → error `"2 3"`;
otherwise proceed.  The input is the `json_loads` result on the extracted
JSON substring; `none` (undefined behaviour inside the parser) cannot occur
for well-typed documents. -/
def zoomifyBlendSpecPhase (jroot : Option JValue) : Option HandlerOutcome :=
  match zbLoadBlendingSettings jroot with
  | .ub => none
  | .fail => some (.errorSet "2 1")
  | .ok [] => some (.errorSet "2 3")
  | .ok ss => some (.proceed ss)

/-- Blend-spec phase of `IIIFBlend::run` (`src/IIIFBlend.cc` lines
105-116), which uses the TileBlender parser: same error codes. -/
def iiifBlendSpecPhase (jroot : Option JValue) : Option HandlerOutcome :=
  match tbLoadBlendingSettings jroot with
  | .ub => none
  | .fail => some (.errorSet "2 1")
  | .ok [] => some (.errorSet "2 3")
  | .ok ss => some (.proceed ss)

/-- Tiles per row at the requested resolution (`src/ZoomifyBlend.cc` lines
282-283): `ntlx = (width / tw) + (width % tw == 0 ? 0 : 1)`. -/
def zoomifyNtlx (width tw : Nat) : Nat :=
  width / tw + (if width % tw = 0 then 0 else 1)

/-- Tile index of `ZoomifyBlend::run` (`src/ZoomifyBlend.cc` line 286):
`tile = y * ntlx + x`. -/
def zoomifyTileIndex (width tw x y : Nat) : Nat :=
  y * zoomifyNtlx width tw + x

/-- The literal `".tif"`. -/
def tifExt : List Char := ".tif".data

/-- `argument.substr(0, argument.find(".tif"))` (`src/ZoomifyBlend.cc`
line 174 and `src/IIIFBlend.cc` line 127): the per-channel filename stem.
When `".tif"` does not occur, `find` returns `npos` and `substr` keeps the
whole string. -/
def stemBeforeTif (argument : List Char) : List Char :=
  match strFind argument tifExt with
  | some i => argument.take i
  | none => argument

/-- Per-channel filename built by both handlers (`src/ZoomifyBlend.cc` lines
184-191, `src/IIIFBlend.cc` lines 132-139): the stem, then `sprintf`-ed
`"_%d"` with the setting's `idx`, then the literal `".tif"`. -/
def channelFilename (argument : List Char) (idx : Nat) : List Char :=
  stemBeforeTif argument ++ '_' :: (Nat.repr idx).data ++ tifExt

/-- The view state consulted by `IIIFBlend::run` when choosing between the
tile path and the region path (`src/IIIFBlend.cc` lines 564-599).  All
fields are the values the session's view reports at that point;
`viewPortSet` selects between the extracted viewport origin and `(0, 0)`
(lines 569-577). -/
structure IIIFView where
  maintainAspect : Bool
  requestedRes : Int
  requestedWidth : Nat
  requestedHeight : Nat
  tw : Nat
  th : Nat
  viewPortSet : Bool
  viewLeft : Nat
  viewTop : Nat
  viewWidth : Nat
  viewHeight : Nat
  imWidth : Nat
  imHeight : Nat

/-- `view_left` as used by the dispatch (`src/IIIFBlend.cc` lines 569-577). -/
def IIIFView.left (v : IIIFView) : Nat := if v.viewPortSet then v.viewLeft else 0

/-- `view_top` as used by the dispatch (`src/IIIFBlend.cc` lines 569-577). -/
def IIIFView.top (v : IIIFView) : Nat := if v.viewPortSet then v.viewTop else 0

/-- The tile-request test of `IIIFBlend::run` (`src/IIIFBlend.cc` lines
580-588), translated condition for condition. -/
def iiifIsTileRequest (v : IIIFView) : Bool :=
  (v.maintainAspect && decide (0 < v.requestedRes) &&
   (v.requestedWidth == v.tw) && (v.requestedHeight == v.th) &&
   (v.left % v.tw == 0) && (v.top % v.th == 0) &&
   (v.viewWidth % v.tw == 0) && (v.viewHeight % v.th == 0) &&
   decide (v.viewWidth < v.imWidth) && decide (v.viewHeight < v.imHeight))
  ||
  (v.maintainAspect && (v.requestedRes == 0) &&
   (v.requestedWidth == v.imWidth) && (v.requestedHeight == v.imHeight))

/-- Outcome of the dispatch at the end of `IIIFBlend::run`: the fast tile
path calls the blender with the computed tile index, the region path throws
`"IIIFBlend: CVT region request not supported for tile blending!"` before
any response byte is written. -/
inductive IIIFBlendDispatch where
  | tilePath (resolution : Int) (tile : Nat)
  | cvtRegionUnsupported
deriving DecidableEq, Repr

/-- The dispatch of `IIIFBlend::run` (`src/IIIFBlend.cc` lines 580-626):
on the tile path the index is `(view_top / th) * ntlx + view_left / tw`
with `ntlx = (im_width / tw) + (im_width % tw == 0 ? 0 : 1)`. -/
def iiifDispatch (v : IIIFView) : IIIFBlendDispatch :=
  if iiifIsTileRequest v then
    .tilePath v.requestedRes
      ((v.top / v.th) * zoomifyNtlx v.imWidth v.tw + v.left / v.tw)
  else .cvtRegionUnsupported

/-- Colour spaces compared against in the embedded checks. -/
inductive ColourSpace where
  | GREYSCALE
  | sRGB
  | CIELAB
deriving DecidableEq, Repr

/-- The format gate of `TileBlender::getRawTilesAndPreprocess`
(`src/TileBlender.cc` lines 93-95) and of
`TileBlender::getRawRegionsAndPreprocess` (lines 483-485), which throw
(aborting the request) when it is true:
`colourspace != GREYSCALE || channels != 1 || (bpc != 16 && bpc != 8)`. -/
def tileBlenderFormatRejected (cs : ColourSpace) (channels bpc : Nat) : Bool :=
  decide (cs ≠ .GREYSCALE) || decide (channels ≠ 1) ||
    (decide (bpc ≠ 16) && decide (bpc ≠ 8))

/-- The format gate of `ZoomifyBlend::send` (`src/ZoomifyBlend.cc` lines
346-348): `colourspace != GREYSCALE || channels != 1 || bpc != 16`. -/
def zoomifySendFormatRejected (cs : ColourSpace) (channels bpc : Nat) : Bool :=
  decide (cs ≠ .GREYSCALE) || decide (channels ≠ 1) || decide (bpc ≠ 16)

/-! ### Definitions taken from the specification's wording

These two definitions are written from the claims' words, for comparison
against the code-derived definitions above. -/

/-- The per-component update as the specification words it:
`clip_to_u8(out + C * (T / 255.0))` with
`clip_to_u8(v) = min(255, max(0, round_to_int(v)))`, in exact arithmetic. -/
def specClipRoundStep (c gv out : Nat) : Nat :=
  (min 255 (max 0 (round ((out : ℚ) + c * gv / 255)))).toNat

/-- The tile-path condition as the claim words it: aspect maintained, and
either (resolution positive, output equals the tile dimensions, region
origin and size tile-aligned on both axes, region strictly smaller than the
image at the chosen resolution) or (resolution zero and the output equals
the full image at that resolution). -/
def iiifTilePathCond (v : IIIFView) : Prop :=
  v.maintainAspect = true ∧
    ((0 < v.requestedRes ∧ v.requestedWidth = v.tw ∧ v.requestedHeight = v.th ∧
      v.left % v.tw = 0 ∧ v.top % v.th = 0 ∧
      v.viewWidth % v.tw = 0 ∧ v.viewHeight % v.th = 0 ∧
      v.viewWidth < v.imWidth ∧ v.viewHeight < v.imHeight) ∨
     (v.requestedRes = 0 ∧ v.requestedWidth = v.imWidth ∧
      v.requestedHeight = v.imHeight))

/-- A blend-document entry in canonical shape: a key, a string `lut` and
integer `min`/`max` fields, as in the documented request format. -/
structure RawEntry where
  key : List Char
  lut : List Char
  emin : Int
  emax : Int

/-- The JSON object entry for a `RawEntry`. -/
def RawEntry.toJson (e : RawEntry) : List Char × JValue :=
  (e.key, .jobj [("lut".data, .jstr e.lut), ("min".data, .jint e.emin),
                 ("max".data, .jint e.emax)])

/-- The `BlendingSetting` the TileBlender parser produces for a valid
`RawEntry`. -/
def RawEntry.toSetting (e : RawEntry) : BlendingSetting :=
  ⟨uintCast (atoi e.key), e.lut.drop 1, uintCast e.emin, uintCast e.emax⟩

/-- Validity of an entry for the TileBlender parser: the lut string has
exactly 7 characters (one to be stripped plus six kept), and `min`/`max`
are non-negative `unsigned int` range values with `min ≤ max`. -/
def RawEntry.Valid (e : RawEntry) : Prop :=
  e.lut.length = 7 ∧ 0 ≤ e.emin ∧ e.emin < 2 ^ 32 ∧ 0 ≤ e.emax ∧
    e.emax < 2 ^ 32 ∧ e.emin ≤ e.emax

/-! ### Helper lemmas -/

/-- A list is a Boolean prefix of itself followed by anything. -/
lemma isPrefixOf_append_self (l r : List Char) : l.isPrefixOf (l ++ r) = true := by
  induction l with
  | nil => cases r with
    | nil => rfl
    | cons a as => rfl
  | cons c cs ih => simp [List.isPrefixOf, ih]

/-- `findSub` locates the pattern right after a haystack segment that does
not contain the pattern's first character. -/
lemma findSub_after_clean (base rest : List Char) (hb : '.' ∉ base) :
    ∀ i, findSub (base ++ tifExt ++ rest) tifExt i = some (i + base.length) := by
  induction base with
  | nil =>
      intro i
      have hpre : tifExt.isPrefixOf (tifExt ++ rest) = true := isPrefixOf_append_self _ _
      have : tifExt ++ rest = '.' :: ("tif".data ++ rest) := rfl
      simp only [List.nil_append, List.length_nil, Nat.add_zero]
      rw [this, findSub, ← this, if_pos hpre]
  | cons c cs ih =>
      intro i
      have hc : c ≠ '.' := fun h => hb (h ▸ List.mem_cons_self c cs)
      have hcs : '.' ∉ cs := fun h => hb (List.mem_cons_of_mem c h)
      have hnp : tifExt.isPrefixOf (c :: (cs ++ tifExt ++ rest)) = false := by
        have : ('.' == c) = false := by
          simp [beq_eq_false_iff_ne]
          exact fun h => hc h.symm
        simp [tifExt, List.isPrefixOf, this]
      rw [show (c :: cs) ++ tifExt ++ rest = c :: (cs ++ tifExt ++ rest) by simp]
      rw [findSub, if_neg (by rw [hnp]; exact Bool.false_ne_true)]
      have harith : i + 1 + cs.length = i + (c :: cs).length := by
        simp only [List.length_cons]
        omega
      rw [ih hcs (i + 1), harith]

/-- Kernel fact about `blendStep`: the saturating clip keeps every output
byte at most 255. -/
lemma blendStep_le (c gv out : Nat) : blendStep c gv out ≤ 255 := by
  simp only [blendStep]
  omega

/-- `blendChannel` preserves the buffer length. -/
lemma blendChannel_length (col : BlendColor) (src dst : List Nat) :
    (blendChannel col src dst).length = dst.length := by
  simp [blendChannel]

/-- Pointwise description of one channel pass. -/
lemma blendChannel_getD (col : BlendColor) (src dst : List Nat) (i : Nat)
    (hi : i < dst.length) :
    (blendChannel col src dst).getD i 0
      = blendStep (colorComp col (i % 3)) (src.getD (i / 3) 0) (dst.getD i 0) := by
  have hi' : i < (blendChannel col src dst).length := by
    rw [blendChannel_length]; exact hi
  rw [List.getD_eq_getElem _ _ hi', List.getD_eq_getElem _ _ hi]
  simp [blendChannel]

/-- Folding channel passes preserves the buffer length. -/
lemma foldl_blendChannel_length (l : List (BlendColor × List Nat)) (dst : List Nat) :
    (l.foldl (fun d ct => blendChannel ct.1 ct.2 d) dst).length = dst.length := by
  induction l generalizing dst with
  | nil => rfl
  | cons ct l ih => simp [List.foldl_cons, ih, blendChannel_length]

/-- Pointwise description of the whole channel fold: byte `i` of the folded
buffer is the fold of the per-channel `blendStep` updates on byte `i`. -/
lemma foldl_blendChannel_getD (l : List (BlendColor × List Nat)) (dst : List Nat)
    (i : Nat) (hi : i < dst.length) :
    (l.foldl (fun d ct => blendChannel ct.1 ct.2 d) dst).getD i 0
      = l.foldl
          (fun out ct => blendStep (colorComp ct.1 (i % 3)) (ct.2.getD (i / 3) 0) out)
          (dst.getD i 0) := by
  induction l generalizing dst with
  | nil => rfl
  | cons ct l ih =>
      simp only [List.foldl_cons]
      rw [ih (blendChannel ct.1 ct.2 dst) (by rw [blendChannel_length]; exact hi),
        blendChannel_getD _ _ _ _ hi]

/-- Folding `blendStep` updates from a byte within range stays within range. -/
lemma foldl_blendStep_le (l : List (BlendColor × List Nat)) (p k x : Nat)
    (hx : x ≤ 255) :
    l.foldl (fun out ct => blendStep (colorComp ct.1 k) (ct.2.getD p 0) out) x ≤ 255 := by
  induction l generalizing x with
  | nil => exact hx
  | cons ct l ih => exact ih _ (blendStep_le _ _ _)

/-- When every tint parses, the blending loop succeeds and equals the fold
of the per-channel passes. -/
lemma blendChannels_eq_foldl (settings : List BlendingSetting)
    (colors : List BlendColor) (tiles : List (List Nat))
    (hc : settings.map (fun s => (stoiHex s.lut).map BlendColor.from_int)
            = colors.map some) :
    ∀ dst, blendChannels settings tiles dst
      = .ok ((colors.zip tiles).foldl (fun d ct => blendChannel ct.1 ct.2 d) dst) := by
  induction settings generalizing colors tiles with
  | nil =>
      intro dst
      have : colors = [] := by
        cases colors with
        | nil => rfl
        | cons c cs => simp at hc
      simp [blendChannels, this]
  | cons s ss ih =>
      intro dst
      cases colors with
      | nil => simp at hc
      | cons c cs =>
          simp only [List.map_cons, List.cons.injEq] at hc
          obtain ⟨hc1, hc2⟩ := hc
          cases tiles with
          | nil => simp [blendChannels]
          | cons t ts =>
              obtain ⟨v, hv, hfv⟩ := Option.map_eq_some'.mp hc1
              simp [blendChannels, hv, hfv, ih cs ts hc2]

/-! ### Claims C6, C7, C9, C10 -/

/-- **C6 (amended)** — For each blend setting in order, both the Zoomify and
the IIIF channel loaders open `<stem>_<channel_index>.tif`, where the stem
is everything before the first `".tif"` in the URL: the extension is the
hard-coded literal `".tif"` for both protocols (it is not inherited from
the URL). -/
theorem C6_channel_filename (base rest : List Char) (idx : Nat) (hb : '.' ∉ base) :
    channelFilename (base ++ tifExt ++ rest) idx
      = base ++ '_' :: (Nat.repr idx).data ++ tifExt := by
  unfold channelFilename stemBeforeTif
  rw [strFind, findSub_after_clean base rest hb 0]
  simp only [Nat.zero_add, List.append_assoc, List.take_left]

/-- **C6 witness** — concrete instantiation: a Zoomify-shaped URL with base
`/data/img.tif` and channel index 0 yields filename `/data/img_0.tif`. -/
theorem C6_witness :
    channelFilename ("/data/img".data ++ tifExt ++ "/TileGroup0/0-0-0.jpg".data) 0
      = "/data/img".data ++ '_' :: (Nat.repr 0).data ++ tifExt :=
  C6_channel_filename "/data/img".data "/TileGroup0/0-0-0.jpg".data 0 (by decide)

/-- **C6 counterexample** — the claim says the extension is inherited from
the URL for Zoomify requests.  For the Zoomify URL
`/a.png/TileGroup0/0-0-0.jpg` (extension `png`) with channel index 0 the
code produces `/a.png/TileGroup0/0-0-0.jpg_0.tif` (the whole URL is the
stem because `".tif"` does not occur, and the appended extension is the
hard-coded `".tif"`), not the claimed `/a_0.png`. -/
theorem C6_counterexample :
    channelFilename "/a.png/TileGroup0/0-0-0.jpg".data 0
        = "/a.png/TileGroup0/0-0-0.jpg_0.tif".data
  ∧ channelFilename "/a.png/TileGroup0/0-0-0.jpg".data 0 ≠ "/a_0.png".data := by
  constructor
  · decide
  · decide

/-- **C7 (amended)** — The TileBlender pipeline (both the tile path
`getRawTilesAndPreprocess` and the region path
`getRawRegionsAndPreprocess`) accepts a channel image exactly when it is
single-channel grayscale with 8 or 16 bits per channel; the older
`ZoomifyBlend::send` path accepts only single-channel grayscale 16-bit
images, rejecting 8-bit ones. -/
theorem C7_format_gate (cs : ColourSpace) (channels bpc : Nat) :
    (tileBlenderFormatRejected cs channels bpc = false ↔
      (cs = .GREYSCALE ∧ channels = 1 ∧ (bpc = 8 ∨ bpc = 16)))
  ∧ (zoomifySendFormatRejected cs channels bpc = false ↔
      (cs = .GREYSCALE ∧ channels = 1 ∧ bpc = 16)) := by
  constructor <;>
    simp [tileBlenderFormatRejected, zoomifySendFormatRejected] <;>
    tauto

/-- **C7 counterexample** — the claim says an 8-bit single-channel
grayscale image is accepted everywhere, but `ZoomifyBlend::send` rejects
it (`UnsupportedFormat` throw). -/
theorem C7_counterexample :
    zoomifySendFormatRejected .GREYSCALE 1 8 = true := by decide

/-- **C9 (amended)** — When a request URL contains no `&` separator,
`find` returns `npos` and `npos + 1` wraps to 0, so the *entire URL* is
taken as the blend JSON and handed to the JSON parser; there is no
`BlendSpecMissing` check anywhere: the blend-spec phase of both handlers
can only raise `"2 1"` (parser failure) or `"2 3"` (empty settings), never
`"2 0"`, and a parser failure surfaces as `"2 1"`. -/
theorem C9_no_missing_separator_check :
    (∀ argument : List Char, strFind argument ['&'] = none →
        blendJsonArg argument = argument)
  ∧ (∀ jroot o, zoomifyBlendSpecPhase jroot = some o → o ≠ .errorSet "2 0")
  ∧ (∀ jroot o, iiifBlendSpecPhase jroot = some o → o ≠ .errorSet "2 0")
  ∧ (∀ jroot, zbLoadBlendingSettings jroot = .fail →
        zoomifyBlendSpecPhase jroot = some (.errorSet "2 1")) := by
  refine ⟨?_, ?_, ?_, ?_⟩
  · intro argument h
    simp [blendJsonArg, h]
  · intro jroot o h
    cases hz : zbLoadBlendingSettings jroot with
    | ub => simp [zoomifyBlendSpecPhase, hz] at h
    | fail =>
        simp [zoomifyBlendSpecPhase, hz] at h
        simp [← h]
    | ok ss =>
        cases ss with
        | nil =>
            simp [zoomifyBlendSpecPhase, hz] at h
            simp [← h]
        | cons a as =>
            simp [zoomifyBlendSpecPhase, hz] at h
            simp [← h]
  · intro jroot o h
    cases hz : tbLoadBlendingSettings jroot with
    | ub => simp [iiifBlendSpecPhase, hz] at h
    | fail =>
        simp [iiifBlendSpecPhase, hz] at h
        simp [← h]
    | ok ss =>
        cases ss with
        | nil =>
            simp [iiifBlendSpecPhase, hz] at h
            simp [← h]
        | cons a as =>
            simp [iiifBlendSpecPhase, hz] at h
            simp [← h]
  · intro jroot h
    simp [zoomifyBlendSpecPhase, h]

/-- **C9 witness** — concrete instantiation of the first conjunct: a
Zoomify tile URL without `&` is passed whole to the JSON parser. -/
theorem C9_witness :
    blendJsonArg "img.tif/TileGroup0/0-0-0.jpg".data
      = "img.tif/TileGroup0/0-0-0.jpg".data :=
  C9_no_missing_separator_check.1 "img.tif/TileGroup0/0-0-0.jpg".data (by decide)

/-- **C9 counterexample** — the claim says a URL without `&` fails with
error `"2 0"` without attempting to parse any part of the URL as JSON.  In
fact the whole URL is extracted as the "JSON" string, and — since
`img.tif/TileGroup0/0-0-0.jpg` is not valid JSON, so jansson's
`json_loads` returns NULL — the handler fails with `"2 1"`, which is not
`"2 0"`. -/
theorem C9_counterexample :
    blendJsonArg "img.tif/TileGroup0/0-0-0.jpg".data
        = "img.tif/TileGroup0/0-0-0.jpg".data
  ∧ zoomifyBlendSpecPhase none = some (.errorSet "2 1")
  ∧ ("2 1" : String) ≠ "2 0" := by
  refine ⟨by decide, by decide, by decide⟩

/-- **C10 (confirmed)** — In `blendTiles` and `blendRegions`, when the
number of loaded channel images differs from the number of blend settings,
the handler sets error `"2 1"` and throws before fetching or preprocessing
any tile (the outcome does not depend on any tile data), so no response
bytes are written. -/
theorem C10_mismatch_guard (numImages : Nat) (settings : List BlendingSetting)
    (rotation : Int) (numRes : Nat) (widths heights : List Nat) (tw : Nat)
    (resolution tile : Int) (w h : Nat) (tiles tiles' : List (List Nat))
    (hmis : numImages ≠ settings.length) :
    blendTilesRun numImages settings rotation numRes widths heights tw
        resolution tile w h tiles = .earlyError "2 1"
  ∧ blendRegionsRun numImages settings w h tiles = .earlyError "2 1"
  ∧ blendTilesRun numImages settings rotation numRes widths heights tw
        resolution tile w h tiles
      = blendTilesRun numImages settings rotation numRes widths heights tw
          resolution tile w h tiles' := by
  refine ⟨?_, ?_, ?_⟩ <;> simp [blendTilesRun, blendRegionsRun, hmis]

/-- **C10 witness** — concrete instantiation: two loaded images against an
empty settings list stop with error `"2 1"` regardless of tile data. -/
theorem C10_witness :
    blendTilesRun 2 [] 0 1 [1] [1] 256 0 0 1 1 [[0]] = .earlyError "2 1"
  ∧ blendRegionsRun 2 [] 1 1 [[0]] = .earlyError "2 1"
  ∧ blendTilesRun 2 [] 0 1 [1] [1] 256 0 0 1 1 [[0]]
      = blendTilesRun 2 [] 0 1 [1] [1] 256 0 0 1 1 [[1]] :=
  C10_mismatch_guard 2 [] 0 1 [1] [1] 256 0 0 1 1 [[0]] [[1]] (by decide)

/-! ### Parser evaluation lemmas and claims C2, C3, C4 -/

/-- `uintCast` is the identity on `unsigned int` range values. -/
lemma uintCast_of_range (n : Int) (h0 : 0 ≤ n) (h32 : n < 2 ^ 32) :
    uintCast n = n.toNat := by
  unfold uintCast
  rw [Int.emod_eq_of_lt h0 h32]

/-- Looking up `"lut"` in a canonical entry object. -/
lemma jsonObjectGet_entry_lut (lv mv xv : JValue) :
    jsonObjectGet (.jobj [("lut".data, lv), ("min".data, mv), ("max".data, xv)])
      "lut".data = some lv := by
  simp [jsonObjectGet, lookupField]

/-- Looking up `"min"` in a canonical entry object. -/
lemma jsonObjectGet_entry_min (lv mv xv : JValue) :
    jsonObjectGet (.jobj [("lut".data, lv), ("min".data, mv), ("max".data, xv)])
      "min".data = some mv := by
  simp only [jsonObjectGet, lookupField]
  rw [if_neg (by decide)]
  simp

/-- Looking up `"max"` in a canonical entry object. -/
lemma jsonObjectGet_entry_max (lv mv xv : JValue) :
    jsonObjectGet (.jobj [("lut".data, lv), ("min".data, mv), ("max".data, xv)])
      "max".data = some xv := by
  simp only [jsonObjectGet, lookupField]
  rw [if_neg (by decide), if_neg (by decide)]
  simp

/-- Evaluation of the TileBlender parser loop on a well-typed entry: the
lut's first character is dropped, the only lut test is the length test, and
the only effective numeric test is `max < min` (as unsigned values). -/
lemma tbLoadLoop_cons_eval (key s : List Char) (mn mx : Int)
    (rest : List (List Char × JValue)) (acc : List BlendingSetting) (hs : s ≠ []) :
    tbLoadLoop ((key, .jobj [("lut".data, .jstr s), ("min".data, .jint mn),
        ("max".data, .jint mx)]) :: rest) acc
      = if (s.drop 1).length ≠ 6 then .fail
        else if uintCast mx < uintCast mn then .fail
        else tbLoadLoop rest
          (acc ++ [⟨uintCast (atoi key), s.drop 1, uintCast mn, uintCast mx⟩]) := by
  have hlen : ¬s.length = 0 := by simpa using hs
  have hcond : (uintCast mx < 0 ∨ uintCast mx < uintCast mn)
      ↔ uintCast mx < uintCast mn := by simp
  rw [tbLoadLoop, jsonObjectGet_entry_lut, jsonObjectGet_entry_min,
    jsonObjectGet_entry_max]
  simp only [jsonStringValue, jsonIntegerValue]
  rw [if_neg hlen, if_neg (Nat.not_lt_zero _)]
  by_cases h6 : (s.drop 1).length ≠ 6
  · rw [if_pos h6, if_pos h6]
  · rw [if_neg h6, if_neg h6]
    by_cases hm : uintCast mx < uintCast mn
    · rw [if_pos (hcond.mpr hm), if_pos hm]
    · rw [if_neg (fun hor => hm (hcond.mp hor)), if_neg hm]

/-- Evaluation of the Zoomify parser loop on a well-typed entry (here
`min`/`max` are JSON strings, read through `atoi`): the lut's first
character is dropped, and the numeric test is `max <= 0 || max <= min`. -/
lemma zbLoadLoop_cons_eval (key s ms xs : List Char)
    (rest : List (List Char × JValue)) (acc : List BlendingSetting) (hs : s ≠ []) :
    zbLoadLoop ((key, .jobj [("lut".data, .jstr s), ("min".data, .jstr ms),
        ("max".data, .jstr xs)]) :: rest) acc
      = if (s.drop 1).length ≠ 6 then .fail
        else if uintCast (atoi xs) ≤ 0 ∨ uintCast (atoi xs) ≤ uintCast (atoi ms)
          then .fail
        else zbLoadLoop rest
          (acc ++ [⟨uintCast (atoi key), s.drop 1, uintCast (atoi ms),
            uintCast (atoi xs)⟩]) := by
  have hlen : ¬s.length = 0 := by simpa using hs
  rw [zbLoadLoop, jsonObjectGet_entry_lut, jsonObjectGet_entry_min,
    jsonObjectGet_entry_max]
  simp only [jsonStringValue]
  rw [if_neg hlen, if_neg (Nat.not_lt_zero _)]

/-- A valid entry is consumed by the TileBlender loop and appended as its
setting. -/
lemma tbLoadLoop_cons_valid (e : RawEntry) (he : e.Valid)
    (rest : List (List Char × JValue)) (acc : List BlendingSetting) :
    tbLoadLoop (e.toJson :: rest) acc = tbLoadLoop rest (acc ++ [e.toSetting]) := by
  obtain ⟨hl, h1, h2, h3, h4, h5⟩ := he
  have hs : e.lut ≠ [] := by
    intro h
    rw [h] at hl
    simp at hl
  rw [RawEntry.toJson, tbLoadLoop_cons_eval e.key e.lut e.emin e.emax rest acc hs]
  rw [if_neg (by simp [List.length_drop, hl]), if_neg ?hmm]
  · rfl
  case hmm =>
    rw [uintCast_of_range _ h3 h4, uintCast_of_range _ h1 h2]
    omega

/-- A list of valid entries is consumed entirely, producing the settings in
document order behind any accumulator. -/
lemma tbLoadLoop_valid_list (doc : List RawEntry) (hv : ∀ e ∈ doc, e.Valid)
    (acc : List BlendingSetting) :
    tbLoadLoop (doc.map RawEntry.toJson) acc
      = .ok (acc ++ doc.map RawEntry.toSetting) := by
  induction doc generalizing acc with
  | nil => simp [tbLoadLoop]
  | cons e es ih =>
      rw [List.map_cons, tbLoadLoop_cons_valid e (hv e (by simp)) _ acc,
        ih (fun x hx => hv x (by simp [hx]))]
      simp

/-- **C2 (amended)** — For every blend document in canonical shape whose
entries each carry a string `lut` of exactly seven characters (one to be
stripped plus the six kept) and integer `min`/`max` with
`0 ≤ min ≤ max < 2^32`, the TileBlender parser succeeds and yields exactly
one setting per entry, in document order, with `channel_index = atoi(key)`
and `min`/`max` preserved; in particular the empty document yields the
empty list. -/
theorem C2_parser_roundtrip (doc : List RawEntry) (hv : ∀ e ∈ doc, e.Valid) :
    tbLoadBlendingSettings (some (.jobj (doc.map RawEntry.toJson)))
      = .ok (doc.map RawEntry.toSetting) := by
  rw [tbLoadBlendingSettings, tbLoadLoop_valid_list doc hv []]
  simp

/-- **C2 witness** — concrete instantiation with the two-channel document
of the specification's own example (keys `10` and `11`). -/
theorem C2_witness :
    tbLoadBlendingSettings (some (.jobj
        (([⟨"10".data, "#00FF00".data, 0, 4095⟩,
           ⟨"11".data, "#FF0000".data, 10, 3000⟩] : List RawEntry).map
          RawEntry.toJson)))
      = .ok ([⟨"10".data, "#00FF00".data, 0, 4095⟩,
              ⟨"11".data, "#FF0000".data, 10, 3000⟩].map RawEntry.toSetting) :=
  C2_parser_roundtrip _ (by
    intro e he
    simp only [List.mem_cons, List.not_mem_nil, or_false] at he
    rcases he with rfl | rfl <;> unfold RawEntry.Valid <;> decide)

/-- **C2 counterexample** — the claim says every valid document (entries
with `lut`, `min`, `max`) parses into as many settings.  The document
`{"0": {"lut": "00FF00", "min": 0, "max": 10}}` is valid in the
specification's sense (six hex digits, optional `#` absent, `min < max`),
yet the parser fails: it always strips the first character and then the
remaining five characters fail the length test. -/
theorem C2_counterexample :
    tbLoadBlendingSettings (some (.jobj [("0".data, .jobj
        [("lut".data, .jstr "00FF00".data), ("min".data, .jint 0),
         ("max".data, .jint 10)])]))
      = .fail := by decide

/-- **C3 (amended)** — The parsed tint is the `lut` value with its *first
character* stripped unconditionally (`#` or not), and the parser accepts
iff the remainder has exactly six characters; there is no hexadecimal
check at parse time (a non-hex tint is only caught later by the blender's
`stoi`, error `"2 1"`). -/
theorem C3_lut_handling (key s : List Char) (mn mx : Int) (hs : s ≠ [])
    (h1 : 0 ≤ mn) (h2 : mn < 2 ^ 32) (h3 : 0 ≤ mx) (h4 : mx < 2 ^ 32)
    (h5 : mn ≤ mx) :
    (s.length = 7 →
      tbLoadBlendingSettings (some (.jobj [(key, .jobj
          [("lut".data, .jstr s), ("min".data, .jint mn),
           ("max".data, .jint mx)])]))
        = .ok [⟨uintCast (atoi key), s.drop 1, mn.toNat, mx.toNat⟩])
  ∧ (s.length ≠ 7 →
      tbLoadBlendingSettings (some (.jobj [(key, .jobj
          [("lut".data, .jstr s), ("min".data, .jint mn),
           ("max".data, .jint mx)])]))
        = .fail) := by
  constructor
  · intro h7
    have := C2_parser_roundtrip [⟨key, s, mn, mx⟩]
      (by intro e he; simp at he; subst he; exact ⟨h7, h1, h2, h3, h4, h5⟩)
    simpa [RawEntry.toJson, RawEntry.toSetting, uintCast_of_range _ h1 h2,
      uintCast_of_range _ h3 h4] using this
  · intro h7
    rw [tbLoadBlendingSettings, tbLoadLoop_cons_eval key s mn mx [] [] hs,
      if_pos (by simp [List.length_drop]; omega)]

/-- **C3 witness** — concrete instantiation: a seven-character lut without
`#` and with a non-hex first character, `xABCDEF`, is accepted with tint
`ABCDEF`; the six-character lut `ABCDEF` is rejected. -/
theorem C3_witness :
    (tbLoadBlendingSettings (some (.jobj [("0".data, .jobj
        [("lut".data, .jstr "xABCDEF".data), ("min".data, .jint 0),
         ("max".data, .jint 10)])]))
      = .ok [⟨uintCast (atoi "0".data), "xABCDEF".data.drop 1,
             Int.toNat 0, Int.toNat 10⟩])
  ∧ (tbLoadBlendingSettings (some (.jobj [("0".data, .jobj
        [("lut".data, .jstr "ABCDEF".data), ("min".data, .jint 0),
         ("max".data, .jint 10)])]))
      = .fail) :=
  ⟨(C3_lut_handling "0".data "xABCDEF".data 0 10 (by decide) (by decide)
      (by decide) (by decide) (by decide) (by decide)).1 (by decide),
   (C3_lut_handling "0".data "ABCDEF".data 0 10 (by decide) (by decide)
      (by decide) (by decide) (by decide) (by decide)).2 (by decide)⟩

/-- **C3 counterexample** — the claim says the parser rejects any document
whose tint remainder is not six characters of `[0-9A-Fa-f]`.  The lut
`#ZZZZZZ` (remainder `ZZZZZZ`, six characters, none of them hexadecimal)
is *accepted* by the parser, with tint `ZZZZZZ`. -/
theorem C3_counterexample :
    tbLoadBlendingSettings (some (.jobj [("0".data, .jobj
        [("lut".data, .jstr "#ZZZZZZ".data), ("min".data, .jint 0),
         ("max".data, .jint 10)])]))
      = .ok [⟨0, "ZZZZZZ".data, 0, 10⟩] := by decide

/-- **C4 (amended)** — The Zoomify parser rejects any entry with
`max <= min` (or `max == 0`); the TileBlender parser, however, rejects only
`max < min` and *accepts* `max == min`.  In both handlers a parser failure
is surfaced as error `"2 1"`. -/
theorem C4_min_max_checks :
    (∀ (key s : List Char) (mn mx : Int)
        (rest : List (List Char × JValue)) (acc : List BlendingSetting),
       s.length = 7 → 0 ≤ mn → mn < 2 ^ 32 → 0 ≤ mx → mx < 2 ^ 32 → mx < mn →
       tbLoadLoop ((key, .jobj [("lut".data, .jstr s), ("min".data, .jint mn),
           ("max".data, .jint mx)]) :: rest) acc = .fail)
  ∧ (∀ (key s ms xs : List Char)
        (rest : List (List Char × JValue)) (acc : List BlendingSetting),
       s.length = 7 → uintCast (atoi xs) ≤ uintCast (atoi ms) →
       zbLoadLoop ((key, .jobj [("lut".data, .jstr s), ("min".data, .jstr ms),
           ("max".data, .jstr xs)]) :: rest) acc = .fail)
  ∧ (∀ jroot, tbLoadBlendingSettings jroot = .fail →
       iiifBlendSpecPhase jroot = some (.errorSet "2 1")) := by
  refine ⟨?_, ?_, ?_⟩
  · intro key s mn mx rest acc h7 h1 h2 h3 h4 hlt
    have hs : s ≠ [] := by
      intro h
      rw [h] at h7
      simp at h7
    rw [tbLoadLoop_cons_eval key s mn mx rest acc hs,
      if_neg (by simp [List.length_drop, h7]),
      if_pos (by
        rw [uintCast_of_range _ h1 h2, uintCast_of_range _ h3 h4]
        omega)]
  · intro key s ms xs rest acc h7 hle
    have hs : s ≠ [] := by
      intro h
      rw [h] at h7
      simp at h7
    rw [zbLoadLoop_cons_eval key s ms xs rest acc hs,
      if_neg (by simp [List.length_drop, h7]),
      if_pos (Or.inr hle)]
  · intro jroot h
    simp [iiifBlendSpecPhase, h]

/-- **C4 witness** — concrete instantiation: `max < min` fails in the
TileBlender loop, `max == min` fails in the Zoomify loop. -/
theorem C4_witness :
    tbLoadLoop [("0".data, .jobj [("lut".data, .jstr "#00FF00".data),
        ("min".data, .jint 7), ("max".data, .jint 5)])] [] = .fail
  ∧ zbLoadLoop [("0".data, .jobj [("lut".data, .jstr "#00FF00".data),
        ("min".data, .jstr "5".data), ("max".data, .jstr "5".data)])] [] = .fail :=
  ⟨C4_min_max_checks.1 "0".data "#00FF00".data 7 5 [] [] (by decide) (by decide)
      (by decide) (by decide) (by decide) (by decide),
   C4_min_max_checks.2.1 "0".data "#00FF00".data "5".data "5".data [] []
      (by decide) (by decide)⟩

/-- **C4 counterexample** — the claim says every document containing an
entry with `max <= min` is rejected, in particular `max == min`.  The
TileBlender parser *accepts* the document
`{"0": {"lut": "#00FF00", "min": 5, "max": 5}}` (its check is only
`max < min`). -/
theorem C4_counterexample :
    tbLoadBlendingSettings (some (.jobj [("0".data, .jobj
        [("lut".data, .jstr "#00FF00".data), ("min".data, .jint 5),
         ("max".data, .jint 5)])]))
      = .ok [⟨0, "00FF00".data, 5, 5⟩] := by decide

/-! ### Claims C5 and C1 -/

/-- The Boolean tile-request test agrees with the claim's condition. -/
lemma iiifIsTileRequest_iff (v : IIIFView) :
    iiifIsTileRequest v = true ↔ iiifTilePathCond v := by
  simp only [iiifIsTileRequest, iiifTilePathCond, Bool.or_eq_true,
    Bool.and_eq_true, decide_eq_true_eq, beq_iff_eq]
  constructor
  · rintro (⟨⟨⟨⟨⟨⟨⟨⟨⟨ha, h1⟩, h2⟩, h3⟩, h4⟩, h5⟩, h6⟩, h7⟩, h8⟩, h9⟩ |
      ⟨⟨⟨ha, h1⟩, h2⟩, h3⟩)
    · exact ⟨ha, Or.inl ⟨h1, h2, h3, h4, h5, h6, h7, h8, h9⟩⟩
    · exact ⟨ha, Or.inr ⟨h1, h2, h3⟩⟩
  · rintro ⟨ha, ⟨h1, h2, h3, h4, h5, h6, h7, h8, h9⟩ | ⟨h1, h2, h3⟩⟩
    · exact Or.inl ⟨⟨⟨⟨⟨⟨⟨⟨⟨ha, h1⟩, h2⟩, h3⟩, h4⟩, h5⟩, h6⟩, h7⟩, h8⟩, h9⟩
    · exact Or.inr ⟨⟨⟨ha, h1⟩, h2⟩, h3⟩

/-- **C5 (confirmed)** — The fast tile path of `IIIFBlend::run` is taken
exactly when aspect is maintained and either (resolution > 0, the requested
output equals the tile dimensions, the region origin and size are
tile-aligned on both axes, and the region is strictly smaller than the
image at the chosen resolution) or (resolution == 0 and the requested
output equals the full image at that resolution); every other IIIF image
request ends in the `CVT region request not supported` throw
(`UnsupportedRegion`) with no image bytes written. -/
theorem C5_dispatch (v : IIIFView) :
    ((∃ r t, iiifDispatch v = .tilePath r t) ↔ iiifTilePathCond v)
  ∧ (¬iiifTilePathCond v → iiifDispatch v = .cvtRegionUnsupported) := by
  by_cases hb : iiifIsTileRequest v = true
  · refine ⟨⟨fun _ => (iiifIsTileRequest_iff v).mp hb, fun _ => ?_⟩, fun hn =>
      absurd ((iiifIsTileRequest_iff v).mp hb) hn⟩
    exact ⟨v.requestedRes, _, by rw [iiifDispatch, if_pos hb]⟩
  · have hcond : ¬iiifTilePathCond v := fun hcnd =>
      hb ((iiifIsTileRequest_iff v).mpr hcnd)
    refine ⟨⟨fun hex => ?_, fun hcnd => absurd hcnd hcond⟩, fun _ => by
      rw [iiifDispatch, if_neg hb]⟩
    obtain ⟨r, t, ht⟩ := hex
    rw [iiifDispatch, if_neg hb] at ht
    exact absurd ht (by simp)

/-- **C5 witness** — concrete instantiation: a region-shaped request (a
720x480 output from a 256-tiled image, aspect maintained but size not equal
to a tile) takes the unsupported-region path. -/
theorem C5_witness :
    iiifDispatch ⟨true, 2, 720, 480, 256, 256, true, 0, 0, 1440, 960, 4096, 4096⟩
      = .cvtRegionUnsupported :=
  (C5_dispatch _).2 (by
    unfold iiifTilePathCond IIIFView.left IIIFView.top
    decide)

/-- **C1 (amended)** — The blender iterates the channels in the fixed
settings order over a zero-initialised RGB output: once every tint parses,
byte `(x, y, component)` of the result is the left fold, over the channels,
of `out := min(255, max(0, trunc(C * (T.pixel / 255.0) + out)))`, where the
arithmetic is IEEE-754 double precision and `trunc` is the
`static_cast<int>` truncation toward zero; saturation is applied after each
channel's addition, and every output byte stays in `0..255`. -/
theorem C1_blend_loop (settings : List BlendingSetting) (colors : List BlendColor)
    (tiles : List (List Nat)) (w h : Nat)
    (hc : settings.map (fun s => (stoiHex s.lut).map BlendColor.from_int)
            = colors.map some) :
    ∃ dst, blendChannels settings tiles (List.replicate (w * h * 3) 0) = .ok dst
      ∧ dst.length = w * h * 3
      ∧ (∀ x ∈ dst, x ≤ 255)
      ∧ ∀ p k, p < w * h → k < 3 →
          dst.getD (3 * p + k) 0
            = (colors.zip tiles).foldl
                (fun out ct => blendStep (colorComp ct.1 k) (ct.2.getD p 0) out)
                0 := by
  refine ⟨_, blendChannels_eq_foldl settings colors tiles hc _, ?_, ?_, ?_⟩
  · rw [foldl_blendChannel_length, List.length_replicate]
  · intro x hx
    obtain ⟨i, hi, hxe⟩ := List.mem_iff_getElem.mp hx
    rw [foldl_blendChannel_length, List.length_replicate] at hi
    have hgd : ((colors.zip tiles).foldl (fun d ct => blendChannel ct.1 ct.2 d)
        (List.replicate (w * h * 3) 0)).getD i 0 = x := by
      rw [List.getD_eq_getElem _ _ (by
        rw [foldl_blendChannel_length, List.length_replicate]; exact hi)]
      exact hxe
    rw [foldl_blendChannel_getD _ _ _ (by rw [List.length_replicate]; exact hi)]
      at hgd
    rw [← hgd]
    exact foldl_blendStep_le _ _ _ _ (by
      rw [List.getD_eq_getElem _ _ (by rw [List.length_replicate]; exact hi)]
      simp)
  · intro p k hp hk
    have hi : 3 * p + k < (List.replicate (w * h * 3) 0).length := by
      rw [List.length_replicate]
      omega
    rw [foldl_blendChannel_getD _ _ _ hi]
    have hmod : (3 * p + k) % 3 = k := by
      rw [Nat.add_comm, Nat.mul_comm, Nat.add_mul_mod_self_right]
      exact Nat.mod_eq_of_lt hk
    have hdiv : (3 * p + k) / 3 = p := by
      rw [Nat.add_comm, Nat.mul_comm, Nat.add_mul_div_right _ _ (by omega)]
      rw [Nat.div_eq_of_lt hk]
      omega
    have hz : (List.replicate (w * h * 3) 0).getD (3 * p + k) 0 = 0 := by
      rw [List.getD_eq_getElem _ _ hi]
      simp
    rw [hmod, hdiv, hz]

/-- **C1 witness** — concrete instantiation: the specification's scenario
S1 (two channels, tints `FF0000` and `00FF00`, single-pixel tiles 200 and
100) satisfies the hypotheses; the blended pixel follows the per-channel
fold. -/
theorem C1_witness :
    ∃ dst, blendChannels
        [⟨0, "FF0000".data, 0, 255⟩, ⟨1, "00FF00".data, 0, 255⟩]
        [[200], [100]] (List.replicate (1 * 1 * 3) 0) = .ok dst
      ∧ dst.length = 1 * 1 * 3
      ∧ (∀ x ∈ dst, x ≤ 255)
      ∧ ∀ p k, p < 1 * 1 → k < 3 →
          dst.getD (3 * p + k) 0
            = (([⟨255, 0, 0⟩, ⟨0, 255, 0⟩] : List BlendColor).zip
                  [[200], [100]]).foldl
                (fun out ct => blendStep (colorComp ct.1 k) (ct.2.getD p 0) out)
                0 :=
  C1_blend_loop [⟨0, "FF0000".data, 0, 255⟩, ⟨1, "00FF00".data, 0, 255⟩]
    [⟨255, 0, 0⟩, ⟨0, 255, 0⟩] [[200], [100]] 1 1 (by decide)

/-- **C1 counterexample** — the claim's update rounds
(`clip_to_u8(v) = min(255, max(0, round_to_int(v)))`); the code truncates.
For tint component 128 and pixel value 1 on a zero output byte the exact
contribution is `128/255 ≈ 0.502`: the claimed update yields 1, the code
yields 0 (shown both for the single step and for the whole
`blendTiles` pipeline on a 1x1 tile with lut `800000`). -/
theorem C1_counterexample :
    blendStep 128 1 0 = 0
  ∧ specClipRoundStep 128 1 0 = 1
  ∧ blendTilesRun 1 [⟨0, "800000".data, 0, 255⟩] 0 1 [1] [1] 256 0 0 1 1 [[1]]
      = .sent [0, 0, 0] := by
  refine ⟨by decide, ?_, by decide⟩
  have hr : round ((0 : ℚ) + 128 * 1 / 255) = 1 := by
    rw [round_eq, show ((0 : ℚ) + 128 * 1 / 255 + 1 / 2) = 511 / 510 by norm_num,
      Int.floor_eq_iff]
    constructor <;> norm_num
  rw [specClipRoundStep]
  push_cast
  rw [hr]
  rfl

/-! ### Claim C8 -/

/-- The `(w + tw - 1) / tw` pattern computes the rational ceiling. -/
lemma ceilDiv_cast (w tw : Nat) (h : 0 < tw) :
    ⌈(w : ℚ) / (tw : ℚ)⌉ = (((w + tw - 1) / tw : Nat) : Int) := by
  have htw : (0 : ℚ) < (tw : ℚ) := by exact_mod_cast h
  have hcast : ((w + tw - 1 : Nat) : ℚ) = (w : ℚ) + tw - 1 := by
    rw [Nat.cast_sub (by omega : 1 ≤ w + tw)]
    push_cast
    ring
  rw [Int.ceil_eq_iff]
  constructor
  · rw [lt_div_iff₀ htw]
    have h1 : (((((w + tw - 1) / tw : Nat) : Int) : ℚ)) * tw ≤ (w : ℚ) + tw - 1 := by
      rw [← hcast]
      exact_mod_cast Nat.div_mul_le_self (w + tw - 1) tw
    nlinarith [h1, htw]
  · rw [div_le_iff₀ htw]
    have hN : w + tw - 1 < ((w + tw - 1) / tw + 1) * tw := by
      have hexp : ((w + tw - 1) / tw + 1) * tw = tw * ((w + tw - 1) / tw) + tw := by
        ring
      rw [hexp]
      calc w + tw - 1 = tw * ((w + tw - 1) / tw) + (w + tw - 1) % tw :=
            (Nat.div_add_mod (w + tw - 1) tw).symm
        _ < tw * ((w + tw - 1) / tw) + tw :=
            Nat.add_lt_add_left (Nat.mod_lt _ h) _
    have hNle : w ≤ (w + tw - 1) / tw * tw := by
      have hexp2 : ((w + tw - 1) / tw + 1) * tw = (w + tw - 1) / tw * tw + tw := by
        ring
      rw [hexp2] at hN
      generalize (w + tw - 1) / tw * tw = m at hN ⊢
      omega
    exact_mod_cast hNle

/-- `zoomifyNtlx` equals the `(w + tw - 1) / tw` form of the ceiling. -/
lemma zoomifyNtlx_eq (w tw : Nat) (h : 0 < tw) :
    zoomifyNtlx w tw = (w + tw - 1) / tw := by
  obtain ⟨q, r, hw, hr⟩ : ∃ q r, w = tw * q + r ∧ r < tw :=
    ⟨w / tw, w % tw, (Nat.div_add_mod w tw).symm, Nat.mod_lt _ h⟩
  subst hw
  unfold zoomifyNtlx
  rw [Nat.mul_add_div h, Nat.mul_add_mod, Nat.div_eq_of_lt hr, Nat.mod_eq_of_lt hr]
  by_cases hr0 : r = 0
  · subst hr0
    have hrhs : (tw * q + tw - 1) / tw = q := by
      rw [Nat.add_sub_assoc (by omega : 1 ≤ tw), Nat.mul_add_div h,
        Nat.div_eq_of_lt (by omega : tw - 1 < tw), Nat.add_zero]
    simp [hrhs]
  · have hrhs : (tw * q + r + tw - 1) / tw = q + 1 := by
      rw [Nat.add_sub_assoc (by omega : 1 ≤ tw) (tw * q + r),
        Nat.add_assoc (tw * q) r (tw - 1), Nat.mul_add_div h,
        show (r + (tw - 1)) / tw = 1 from
          Nat.div_eq_of_lt_le (by omega) (by omega)]
    simp [hrhs, hr0]

/-- **C8 (confirmed)** — In the tile path the fetched tile index equals
`ty * ntlx + tx` with `ntlx = ceil(im_width / tile_width)` at the requested
resolution, and when rotation is 180 the index is remapped to
`total_tiles - tile_index - 1` with
`total_tiles = ceil(im_width / tw) * ceil(im_height / tw)`; concretely,
`tx = 3, ty = 2` at a resolution five tiles wide gives index 13, and with
20 total tiles rotation 180 remaps index 3 to 16. -/
theorem C8_tile_index :
    (∀ w tw x y : Nat, 0 < tw →
       (zoomifyTileIndex w tw x y : Int) = y * ⌈(w : ℚ) / (tw : ℚ)⌉ + x)
  ∧ (∀ (numRes : Nat) (widths heights : List Nat) (tw : Nat)
        (resolution tile : Int), 0 < tw →
       remapTile 180 numRes widths heights tw resolution tile
         = ⌈((widths.getD ((numRes : Int) - resolution - 1).toNat 0 : Nat) : ℚ)
              / (tw : ℚ)⌉
             * ⌈((heights.getD ((numRes : Int) - resolution - 1).toNat 0 : Nat) : ℚ)
                  / (tw : ℚ)⌉
             - tile - 1)
  ∧ zoomifyTileIndex 1280 256 3 2 = 13
  ∧ remapTile 180 1 [1280] [1024] 256 0 3 = 16 := by
  refine ⟨?_, ?_, by decide, by decide⟩
  · intro w tw x y htw
    rw [zoomifyTileIndex, zoomifyNtlx_eq w tw htw, ceilDiv_cast w tw htw]
    push_cast
    ring
  · intro numRes widths heights tw resolution tile htw
    simp only [remapTile]
    rw [if_neg (by decide), if_neg (by decide), if_pos (by decide),
      ceilDiv_cast _ tw htw, ceilDiv_cast _ tw htw]

/-- **C8 witness** — concrete instantiation of the index formula:
`tx = 3, ty = 2` on a 1280-pixel-wide resolution with 256-pixel tiles
(five tiles across). -/
theorem C8_witness :
    (zoomifyTileIndex 1280 256 3 2 : Int) = 2 * ⌈(1280 : ℚ) / (256 : ℚ)⌉ + 3 :=
  C8_tile_index.1 1280 256 3 2 (by decide)

end IipsrvBlend
